import Mathlib

/-!
Shallow embedding of the RethinkDB instrumentation module
(`opentelemetry-instrumentation-rethinkdb`): the call-chain recorder
(`MethodExecutionContext`), the span lifecycle manager (`RqlQueryTracer`),
the query-builder proxy (`RqlQueryProxy`) and the cursor proxy
(`DefaultCursorProxy`).  Python's mutable objects are rendered as explicit
state passing; tracing side effects are rendered as an explicit event log;
Python exceptions are rendered as `Except` values.
-/

namespace RethinkDBInstr

/-- Python exceptions that flow through the instrumentation layer.
`reqlCursorEmpty` models `rethinkdb.errors.ReqlCursorEmpty` (stream
exhaustion); `reqlError` models any other driver-level failure;
`pyException` models a plain `Exception(msg)` raised by the tracing layer. -/
inductive RethinkError where
  | reqlCursorEmpty : RethinkError
  | reqlError (msg : String) : RethinkError
  | pyException (msg : String) : RethinkError
deriving DecidableEq

/-- Python's `str(ex)` for the exceptions above. -/
def errStr : RethinkError → String
  | .reqlCursorEmpty => "ReqlCursorEmpty"
  | .reqlError msg => msg
  | .pyException msg => msg

/-- Decimal digit rendering with explicit fuel (structural recursion so the
kernel can evaluate it).  `decimalAux fuel n` is the list of decimal digit
characters of `n` (most significant first), empty for `n = 0`, provided
`n ≤ fuel`. -/
def decimalAux : Nat → Nat → List Char
  | 0, _ => []
  | fuel + 1, n =>
    if n = 0 then [] else decimalAux fuel (n / 10) ++ [Char.ofNat (n % 10 + 48)]

/-- Decimal rendering of a natural number (Python's `str(n)`). -/
def natRepr (n : Nat) : String :=
  if n = 0 then "0" else String.mk (decimalAux n n)

/-- Python's 02d format: decimal rendering zero-padded to width 2. -/
def pad2 (n : Nat) : String :=
  if n < 10 then "0" ++ natRepr n else natRepr n

/-- The history key `#NN.name` (NN the 02d-padded index) of
`MethodExecutionContext.add_context` (`__init__.py` line 75). -/
def historyKey (index : Nat) (name : String) : String :=
  "#" ++ pad2 index ++ "." ++ name

/-- Ordered string concatenation (the repeated `result += ...` loop). -/
def concatList : List String → String
  | [] => ""
  | s :: rest => s ++ concatList rest

/-- Insertion into a Python `dict` viewed as an insertion-ordered
association list: assigning to an existing key overwrites in place,
assigning to a fresh key appends. -/
def dictInsert (d : List (String × String)) (k v : String) :
    List (String × String) :=
  if d.any (fun kv => kv.1 == k) then
    d.map (fun kv => if kv.1 == k then (k, v) else kv)
  else d ++ [(k, v)]

/-- `MethodExecutionContext` (`__init__.py` lines 65-103): `_name`, `_args`
and `_kwargs` hold the root call; `_context` is the slash-joined path and
`_history` the insertion-ordered history dict.  Positional arguments are
modelled by their string rendering (Python stringifies each argument);
keyword arguments by (key, rendered value) pairs. -/
structure MethodExecutionContext where
  _name : String
  _args : List String
  _kwargs : List (String × String)
  _context : String
  _history : List (String × String)
deriving DecidableEq

namespace MethodExecutionContext

/-- `_get_arguments_list` (`__init__.py` lines 97-103): each positional
argument stringified and comma-joined, each keyword argument rendered as
`(key=value),`, all wrapped in parentheses. -/
def _get_arguments_list (args : List String) (kwargs : List (String × String)) :
    String :=
  "(" ++ concatList (args.map (fun a => a ++ ",")) ++
    concatList (kwargs.map (fun kv => "(" ++ kv.1 ++ "=" ++ kv.2 ++ "),")) ++ ")"

/-- `add_context` (`__init__.py` lines 73-77): appends `/name` to the path
and records a history entry keyed by `#NN.name` with `NN = len(history)`. -/
def add_context (ctx : MethodExecutionContext) (name : String)
    (args : List String) (kwargs : List (String × String)) :
    MethodExecutionContext :=
  { ctx with
    _context := ctx._context ++ "/" ++ name
    _history := dictInsert ctx._history (historyKey ctx._history.length name)
      (_get_arguments_list args kwargs) }

/-- `get_context_path` (`__init__.py` lines 79-80). -/
def get_context_path (ctx : MethodExecutionContext) : String := ctx._context

/-- `get_history` (`__init__.py` lines 82-83). -/
def get_history (ctx : MethodExecutionContext) : List (String × String) :=
  ctx._history

/-- `clear_context` (`__init__.py` lines 85-88): resets path and history,
then immediately re-records the root call. -/
def clear_context (ctx : MethodExecutionContext) : MethodExecutionContext :=
  add_context { ctx with _context := "", _history := [] }
    ctx._name ctx._args ctx._kwargs

/-- `__init__` (`__init__.py` lines 66-71): stores the root call and primes
path and history via `clear_context`. -/
def mk0 (name : String) (args : List String)
    (kwargs : List (String × String)) : MethodExecutionContext :=
  clear_context { _name := name, _args := args, _kwargs := kwargs,
                  _context := "", _history := [] }

end MethodExecutionContext

/-- A tracing-backend span reference: its name and whether the backend put
it in a recording (sampled-in) state when it was started. -/
structure SpanObj where
  name : String
  recording : Bool
deriving DecidableEq

/-- Observable calls made against the tracing backend (the span API of §6):
starting a span, `set_attribute`, `set_status(ERROR, desc)`, and `end`. -/
inductive TraceEvent where
  | startSpan (name : String) (recording : Bool) : TraceEvent
  | setAttribute (spanName key value : String) : TraceEvent
  | setStatus (spanName desc : String) : TraceEvent
  | endSpan (spanName : String) : TraceEvent
deriving DecidableEq

/-- Whether an event is a span start. -/
def TraceEvent.isStart : TraceEvent → Bool
  | .startSpan _ _ => true
  | _ => false

/-- Whether an event is a span end. -/
def TraceEvent.isEnd : TraceEvent → Bool
  | .endSpan _ => true
  | _ => false

/-- Whether an event is a `set_status` call. -/
def TraceEvent.isSetStatus : TraceEvent → Bool
  | .setStatus _ _ => true
  | _ => false

/-- `RqlQueryTracer` (`__init__.py` lines 105-159): holds the method
context and the deferred running span (`None` initially). -/
structure RqlQueryTracer where
  _method_context : MethodExecutionContext
  _running_span : Option SpanObj
deriving DecidableEq

namespace RqlQueryTracer

/-- `RqlQueryTracer.__init__` (`__init__.py` lines 106-108). -/
def mk0 (method_context : MethodExecutionContext) : RqlQueryTracer :=
  { _method_context := method_context, _running_span := none }

/-- `_populate_span` (`__init__.py` lines 145-157): skipped when the span
is not recording; otherwise sets `db.system`, then one attribute per
history entry (insertion order), then clears the owning context. -/
def _populate_span (t : RqlQueryTracer) (span : SpanObj) :
    RqlQueryTracer × List TraceEvent :=
  if !span.recording then (t, [])
  else
    ({ t with _method_context := t._method_context.clear_context },
     TraceEvent.setAttribute span.name "db.system" "rethinkdb" ::
       t._method_context.get_history.map
         (fun kv => TraceEvent.setAttribute span.name ("db.method." ++ kv.1) kv.2))

/-- `traced_execution` (`__init__.py` lines 110-129): opens a span named
after the current context path (`start_as_current_span`, which also ends
the span when the `with` block is left on either path), populates it,
invokes the wrapped run callable, and on failure sets ERROR status with
`str(ex)` (only if the span records) before re-raising the same exception.
The wrapped callable's behaviour is passed in as its `Except` outcome;
`rc` is the recording state the backend gives the new span. -/
def traced_execution {A : Type} (t : RqlQueryTracer) (rc : Bool)
    (run_method : Except RethinkError A) :
    RqlQueryTracer × List TraceEvent × Except RethinkError A :=
  let name := t._method_context.get_context_path
  let span : SpanObj := { name := name, recording := rc }
  let popped := t._populate_span span
  match run_method with
  | .ok result =>
    (popped.1,
     TraceEvent.startSpan name rc :: popped.2 ++ [TraceEvent.endSpan name],
     .ok result)
  | .error ex =>
    let statusEvs :=
      if span.recording then [TraceEvent.setStatus name (errStr ex)] else []
    (popped.1,
     TraceEvent.startSpan name rc :: popped.2 ++ statusEvs ++
       [TraceEvent.endSpan name],
     .error ex)

/-- `_start_new_span` (`__init__.py` lines 131-136): starts the deferred
span when none is running, otherwise raises
`Exception("You need to finish the trace before starting a new one")`. -/
def _start_new_span (t : RqlQueryTracer) (rc : Bool) :
    Except RethinkError (RqlQueryTracer × List TraceEvent) :=
  match t._running_span with
  | none =>
    let name := t._method_context.get_context_path
    Except.ok ({ t with _running_span := some { name := name, recording := rc } },
               [TraceEvent.startSpan name rc])
  | some _ =>
    Except.error (RethinkError.pyException
      "You need to finish the trace before starting a new one")

/-- `_stop_running_span` (`__init__.py` lines 138-143): no-op when no span
is running; otherwise populates, ends the span and clears the reference. -/
def _stop_running_span (t : RqlQueryTracer) : RqlQueryTracer × List TraceEvent :=
  match t._running_span with
  | none => (t, [])
  | some span =>
    let popped := t._populate_span span
    ({ popped.1 with _running_span := none },
     popped.2 ++ [TraceEvent.endSpan span.name])

end RqlQueryTracer

/-- One chainable builder call: its name and (rendered) arguments. -/
structure Call where
  name : String
  args : List String
  kwargs : List (String × String)
deriving DecidableEq

/-- Rendered argument string of a call. -/
def Call.render (c : Call) : String :=
  MethodExecutionContext._get_arguments_list c.args c.kwargs

namespace RqlQueryProxy

/-- `RqlQueryProxy.__execute_method__` (`__init__.py` lines 169-171): first
invokes the real wrapped method; only if it returns does it record the
wrapped method's `__name__` in the shared context (a raised exception
propagates before `add_context` runs).  The wrapped method's behaviour is
its `Except` outcome; the shared (mutable) context is threaded
explicitly and returned alongside. -/
def __execute_method__ {Q : Type} (ctx : MethodExecutionContext)
    (wrapped_name : String) (args : List String)
    (kwargs : List (String × String)) (wrapped_result : Except RethinkError Q) :
    MethodExecutionContext × Except RethinkError Q :=
  match wrapped_result with
  | .error e => (ctx, .error e)
  | .ok result => (ctx.add_context wrapped_name args kwargs, .ok result)

/-- The chainable method names defined on `RqlQueryProxy`
(`__init__.py` lines 173-564), in source order. -/
def chainableMethods : List String :=
  ["insert", "update", "delete", "pluck", "default", "merge", "coerce_to",
   "get", "filter", "eq", "ne", "lt", "le", "gt", "ge", "add", "sub", "mul",
   "div", "mod", "bit_and", "bit_or", "bit_xor", "bit_not", "bit_sal",
   "bit_sar", "floor", "ceil", "round", "and_", "or_", "not_", "contains",
   "has_fields", "with_fields", "keys", "values", "changes", "without", "do",
   "replace", "ungroup", "type_of", "append", "prepend", "difference",
   "set_insert", "set_union", "set_intersection", "set_difference",
   "get_field", "nth", "to_json", "to_json_string", "match", "split",
   "upcase", "downcase", "is_empty", "offsets_of", "slice", "skip", "limit",
   "reduce", "sum", "avg", "min", "max", "map", "fold", "concat_map",
   "order_by", "between", "distinct", "count", "union", "inner_join",
   "outer_join", "eq_join", "zip", "group", "branch", "for_each", "info",
   "insert_at", "splice_at", "delete_at", "change_at", "sample",
   "to_iso8601", "to_epoch_time", "during", "date", "time_of_day",
   "timezone", "year", "month", "day", "day_of_week", "day_of_year",
   "hours", "minutes", "seconds", "in_timezone", "to_geojson", "distance",
   "intersects", "includes", "fill", "polygon_sub", "compose", "get_all",
   "set_write_hook", "get_write_hook", "index_create", "index_drop",
   "index_rename", "index_list", "index_status", "index_wait", "status",
   "config", "wait", "reconfigure", "rebalance", "sync", "grant",
   "get_intersecting", "get_nearest", "uuid"]

/-- Which wrapped (`self.__wrapped__.X`) method each proxy method invokes.
Every proxy method passes `self.__wrapped__.<same name>` to
`__execute_method__`, except `upcase`, which passes
`self.__wrapped__.filter` (`__init__.py` lines 343-344), and `downcase`,
which passes `self.__wrapped__.upcase` (lines 346-347). -/
def proxy_method_target (mname : String) : String :=
  if mname = "upcase" then "filter"
  else if mname = "downcase" then "upcase"
  else mname

/-- Invoking a chainable proxy method named `mname`: the wrapped object's
method table is `methods` (outcome per wrapped-method name); the invoked
wrapped method and the recorded name are both `proxy_method_target mname`,
since `__execute_method__` records `wrapped_method.__name__`. -/
def invoke {Q : Type} (ctx : MethodExecutionContext) (mname : String)
    (methods : String → Except RethinkError Q) (args : List String)
    (kwargs : List (String × String)) :
    MethodExecutionContext × Except RethinkError Q :=
  __execute_method__ ctx (proxy_method_target mname) args kwargs
    (methods (proxy_method_target mname))

/-- `RqlQueryProxy.run` (`__init__.py` lines 567-570): records `run` in the
shared context, builds a fresh `RqlQueryTracer` over it and routes the real
`run` callable through `traced_execution`.  Returns the context after the
call (the shared object the proxy keeps), the emitted trace events and the
call's outcome. -/
def run {A : Type} (ctx : MethodExecutionContext) (rc : Bool)
    (args : List String) (kwargs : List (String × String))
    (run_result : Except RethinkError A) :
    MethodExecutionContext × List TraceEvent × Except RethinkError A :=
  let t := RqlQueryTracer.mk0 (ctx.add_context "run" args kwargs)
  let out := t.traced_execution rc run_result
  (out.1._method_context, out.2.1, out.2.2)

end RqlQueryProxy

/-- `DefaultCursorProxy` (`__init__.py` lines 579-598): wraps the driver
cursor; holds a tracer over the shared context. -/
structure DefaultCursorProxy where
  tracer : RqlQueryTracer
deriving DecidableEq

namespace DefaultCursorProxy

/-- `DefaultCursorProxy.__init__` (`__init__.py` lines 581-584): records a
`cursor` entry in the context and builds the tracer. -/
def mk0 (method_context : MethodExecutionContext) (args : List String)
    (kwargs : List (String × String)) : DefaultCursorProxy :=
  { tracer := RqlQueryTracer.mk0 (method_context.add_context "cursor" args kwargs) }

/-- `__iter__` (`__init__.py` lines 586-588): starts the deferred span via
`_start_new_span` (which raises when one is already running) and returns
the proxy itself. -/
def __iter__ (c : DefaultCursorProxy) (rc : Bool) :
    Except RethinkError (DefaultCursorProxy × List TraceEvent) :=
  match c.tracer._start_new_span rc with
  | .error e => .error e
  | .ok ts => .ok ({ tracer := ts.1 }, ts.2)

/-- `__next__` (`__init__.py` lines 590-598): passes through to the real
iterator; when it raises — `ReqlCursorEmpty` or anything else, both except
branches behave identically — the deferred span is stopped and the very
same exception is re-raised.  The real iterator's behaviour for this call
is passed in as its `Except` outcome. -/
def __next__ {A : Type} (c : DefaultCursorProxy)
    (wrapped_next : Except RethinkError A) :
    DefaultCursorProxy × List TraceEvent × Except RethinkError A :=
  match wrapped_next with
  | .ok a => (c, [], .ok a)
  | .error e =>
    let stopped := c.tracer._stop_running_span
    ({ tracer := stopped.1 }, stopped.2, .error e)

end DefaultCursorProxy

/-- Numeric value of a decimal digit character. -/
def chVal (c : Char) : Nat := c.toNat - 48

/-- Value of a most-significant-first digit-character list. -/
def natOfDigits (cs : List Char) : Nat :=
  cs.foldl (fun a c => a * 10 + chVal c) 0

/-- Modelled from the spec: tokenizer of the Payload-classifier (§4.2).
The classifier itself is not part of the source file under `src/` (only the
structural cursor-based classifier is); §4.2 describes it as: "tokenize the
leading bracketed numeric sequence", failing (returning no tokens) on any
malformed or unexpected payload shape.  `tokenizeChars` scans the characters
inside the leading bracket: digits accumulate into the current number,
separators (comma, inner bracket, space) flush it, anything else is a parse
failure. -/
def tokenizeChars : List Char → List Char → Option (List Nat)
  | [], acc => some (if acc.isEmpty then [] else [natOfDigits acc])
  | c :: rest, acc =>
    if c.isDigit then tokenizeChars rest (acc ++ [c])
    else if c = ',' ∨ c = '[' ∨ c = ' ' then
      match tokenizeChars rest [] with
      | none => none
      | some ns => some ((if acc.isEmpty then [] else [natOfDigits acc]) ++ ns)
    else none

/-- Modelled from the spec: tokenization of the leading bracketed numeric
sequence of a payload (§4.2).  Fails (`none`) when the payload does not
open with `[`, has no closing `]`, holds a non-numeric token, or holds no
number at all. -/
def tokenizePayload (payload : String) : Option (List Nat) :=
  match payload.data with
  | '[' :: rest =>
    if rest.contains ']' then
      match tokenizeChars (rest.takeWhile (fun c => c ≠ ']')) [] with
      | some (n :: ns) => some (n :: ns)
      | _ => none
    else none
  | _ => none

/-- Modelled from the spec: the top-level query-type name table of §4.2
(type-number → type-name: `start`, `continue`, `stop`, `noreplyWait`). -/
def queryTypeName (n : Nat) : Option String :=
  if n = 1 then some "start"
  else if n = 2 then some "continue"
  else if n = 3 then some "stop"
  else if n = 4 then some "noreplyWait"
  else none

/-- Slash-joined path of a name sequence, each segment preceded by `/`
(the spec's `/table/filter/run` shape). -/
def chainPath : List String → String
  | [] => ""
  | n :: rest => "/" ++ n ++ chainPath rest

/-- Modelled from the spec: the static command-number → command-name table
of §4.2 lives in the driver's protocol enum, outside this repository; it is
abstracted here as an injective rendering of the opcode. -/
def commandName (n : Nat) : String := "term" ++ natRepr n

/-- Modelled from the spec: the Payload-classifier of §4.2.  On a parse
failure it must not raise: it returns the `undefined` type tag and an
error-describing path string.  Otherwise the first number maps through the
query-type table, the remaining numbers map through the command table into
a slash-separated path prefixed with the fixed namespace tag; a
single-element payload is an opcode with an implicit trailing type
marker. -/
def classify_query (payload : String) : String × String :=
  match tokenizePayload payload with
  | none => ("undefined", "error: could not parse payload: " ++ payload)
  | some [] => ("undefined", "error: could not parse payload: " ++ payload)
  | some [n] => ("start", "rethinkdb/" ++ commandName n)
  | some (t :: rest) =>
    match queryTypeName t with
    | none => ("undefined", "error: could not parse payload: " ++ payload)
    | some tag => (tag, "rethinkdb" ++ chainPath (rest.map commandName))

/-- Modelled from the spec: the connection proxy's raw-send interception
(§4.2/§4.3 direct-call mode).  The outgoing payload is classified; an
`undefined` classification (parse failure) or a `continue` classification
creates no span; otherwise a span named by the classified path wraps the
call, with `db.system` and `db.query` attributes and error status on
failure.  In every branch the wrapped call's own outcome is returned
unchanged. -/
def traced_send {A : Type} (rc : Bool) (payload : String)
    (call : Except RethinkError A) : List TraceEvent × Except RethinkError A :=
  let classified := classify_query payload
  if classified.1 = "undefined" ∨ classified.1 = "continue" then ([], call)
  else
    let attrEvs :=
      if rc then
        [TraceEvent.setAttribute classified.2 "db.system" "rethinkdb",
         TraceEvent.setAttribute classified.2 "db.query" payload]
      else []
    let statusEvs :=
      match call with
      | .ok _ => []
      | .error e =>
        if rc then [TraceEvent.setStatus classified.2 (errStr e)] else []
    (TraceEvent.startSpan classified.2 rc :: attrEvs ++ statusEvs ++
       [TraceEvent.endSpan classified.2], call)

/-- Applying a sequence of recorded chain calls to a context, in order
(each chained proxy method calls `add_context` once). -/
def applyChain (ctx : MethodExecutionContext) (calls : List Call) :
    MethodExecutionContext :=
  calls.foldl (fun c k => c.add_context k.name k.args k.kwargs) ctx

/-- The explicit history-entry list of a call sequence recorded starting at
index `i`: entry `#NN.name ↦ rendered args` at consecutive indices. -/
def histEntries : Nat → List Call → List (String × String)
  | _, [] => []
  | i, c :: rest => (historyKey i c.name, c.render) :: histEntries (i + 1) rest

/-- The explicit per-call attribute events `_populate_span` emits for a
call sequence starting at index `i`. -/
def historyAttrs (spanName : String) : Nat → List Call → List TraceEvent
  | _, [] => []
  | i, c :: rest =>
    TraceEvent.setAttribute spanName ("db.method." ++ historyKey i c.name)
      c.render :: historyAttrs spanName (i + 1) rest

/-- Driving a cursor proxy through a sequence of `next` calls: the real
iterator yields each of `rows` in turn and then raises `terminal` (either
`ReqlCursorEmpty` or any other failure). -/
def runNexts {A : Type} (c : DefaultCursorProxy) (rows : List A)
    (terminal : RethinkError) :
    DefaultCursorProxy × List TraceEvent × Except RethinkError A :=
  match rows with
  | [] => c.__next__ (Except.error terminal)
  | a :: rest =>
    let step := c.__next__ (Except.ok a)
    let next := runNexts step.1 rest terminal
    (next.1, step.2.1 ++ next.2.1, next.2.2)

/-! ### Decimal rendering lemmas

`add_context` keys history entries by `#NN.name` with `NN = len(history)`;
to reason about the history dict we need that distinct indices give
distinct keys, i.e. that the zero-padded rendering is injective. -/

theorem decimalAux_zero (fuel : Nat) : decimalAux fuel 0 = [] := by
  cases fuel <;> simp [decimalAux]

theorem digit_toNat {d : Nat} (h : d < 10) :
    (Char.ofNat (d + 48)).toNat = d + 48 := by
  revert h
  revert d
  decide

theorem chVal_digit {d : Nat} (h : d < 10) :
    chVal (Char.ofNat (d + 48)) = d := by
  simp [chVal, digit_toNat h]

theorem decimalAux_foldl (fuel : Nat) :
    ∀ n a, n ≤ fuel →
      (decimalAux fuel n).foldl (fun x c => x * 10 + chVal c) a =
        a * 10 ^ (decimalAux fuel n).length + n := by
  induction fuel with
  | zero =>
    intro n a hn
    interval_cases n
    simp [decimalAux]
  | succ f ih =>
    intro n a hn
    by_cases h0 : n = 0
    · simp [decimalAux, h0]
    · have hdiv : n / 10 ≤ f := by
        have : n / 10 < n := Nat.div_lt_self (Nat.pos_of_ne_zero h0) (by omega)
        omega
      have hmod : n % 10 < 10 := Nat.mod_lt n (by omega)
      simp only [decimalAux, if_neg h0, List.foldl_append, List.length_append,
        List.foldl_cons, List.foldl_nil, List.length_cons, List.length_nil,
        Nat.zero_add]
      rw [ih (n / 10) a hdiv, chVal_digit hmod]
      generalize (decimalAux f (n / 10)).length = L
      rw [Nat.pow_succ, ← Nat.mul_assoc]
      omega

theorem decimalAux_val {n : Nat} (_h : 0 < n) :
    (decimalAux n n).foldl (fun x c => x * 10 + chVal c) 0 = n := by
  rw [decimalAux_foldl n n 0 (Nat.le_refl n)]
  simp

theorem natRepr_eq_of_ne {n : Nat} (hn : n ≠ 0) :
    natRepr n = String.mk (decimalAux n n) := by
  rw [natRepr, if_neg hn]

theorem natRepr_data_of_ne {n : Nat} (hn : n ≠ 0) :
    (natRepr n).data = decimalAux n n := by
  rw [natRepr_eq_of_ne hn]

theorem natRepr_inj {m n : Nat} (h : natRepr m = natRepr n) : m = n := by
  by_cases hm : m = 0 <;> by_cases hn : n = 0
  · omega
  · exfalso
    subst hm
    have hdata : (String.data "0") = decimalAux n n := by
      have := congrArg String.data h
      rwa [natRepr_data_of_ne hn] at this
    have hv : (String.data "0").foldl (fun x c => x * 10 + chVal c) 0 = 0 := by
      decide
    rw [hdata, decimalAux_val (Nat.pos_of_ne_zero hn)] at hv
    omega
  · exfalso
    subst hn
    have hdata : decimalAux m m = (String.data "0") := by
      have := congrArg String.data h
      rwa [natRepr_data_of_ne hm] at this
    have hv : (String.data "0").foldl (fun x c => x * 10 + chVal c) 0 = 0 := by
      decide
    rw [← hdata, decimalAux_val (Nat.pos_of_ne_zero hm)] at hv
    omega
  · have hdata : decimalAux m m = decimalAux n n := by
      have := congrArg String.data h
      rwa [natRepr_data_of_ne hm, natRepr_data_of_ne hn] at this
    have hm' := decimalAux_val (Nat.pos_of_ne_zero hm)
    have hn' := decimalAux_val (Nat.pos_of_ne_zero hn)
    rw [hdata] at hm'
    omega

theorem decimalAux_mem (fuel : Nat) :
    ∀ n c, c ∈ decimalAux fuel n → ∃ d, d < 10 ∧ c = Char.ofNat (d + 48) := by
  induction fuel with
  | zero => intro n c hc; simp [decimalAux] at hc
  | succ f ih =>
    intro n c hc
    by_cases h0 : n = 0
    · simp [decimalAux, h0] at hc
    · simp only [decimalAux, if_neg h0, List.mem_append, List.mem_singleton] at hc
      rcases hc with hc | hc
      · exact ih (n / 10) c hc
      · exact ⟨n % 10, Nat.mod_lt n (by omega), hc⟩

theorem decimalAux_head {fuel : Nat} :
    ∀ n, 0 < n → n ≤ fuel →
      ∃ d l, decimalAux fuel n = Char.ofNat (d + 48) :: l ∧ 0 < d ∧ d < 10 := by
  induction fuel with
  | zero => intro n h1 h2; omega
  | succ f ih =>
    intro n h1 h2
    have h0 : n ≠ 0 := by omega
    by_cases hsmall : n < 10
    · have hdiv : n / 10 = 0 := Nat.div_eq_of_lt hsmall
      have hmod : n % 10 = n := Nat.mod_eq_of_lt hsmall
      refine ⟨n, [], ?_, h1, hsmall⟩
      simp [decimalAux, if_neg h0, hdiv, decimalAux_zero, hmod]
    · have hdivpos : 0 < n / 10 := by
        have : 10 ≤ n := by omega
        omega
      have hdivle : n / 10 ≤ f := by
        have : n / 10 < n := Nat.div_lt_self h1 (by omega)
        omega
      obtain ⟨d, l, hdl, hd1, hd2⟩ := ih (n / 10) hdivpos hdivle
      exact ⟨d, l ++ [Char.ofNat (n % 10 + 48)], by
        simp [decimalAux, if_neg h0, hdl], hd1, hd2⟩

theorem pad2_inj {m n : Nat} (h : pad2 m = pad2 n) : m = n := by
  by_cases hm : m < 10 <;> by_cases hn : n < 10
  · simp only [pad2, if_pos hm, if_pos hn] at h
    have hdata := congrArg String.data h
    rw [String.data_append, String.data_append] at hdata
    have : (natRepr m).data = (natRepr n).data := by simpa using hdata
    exact natRepr_inj (String.ext this)
  · exfalso
    simp only [pad2, if_pos hm, if_neg hn] at h
    have hnpos : 0 < n := by omega
    obtain ⟨d, l, hdl, hd1, hd2⟩ := decimalAux_head n hnpos (Nat.le_refl n)
    have hdata : '0' :: (natRepr m).data = decimalAux n n := by
      have h2 := congrArg String.data h
      rw [String.data_append, natRepr_data_of_ne (by omega : n ≠ 0)] at h2
      simpa using h2
    rw [hdl] at hdata
    injection hdata with hhead _
    have := congrArg Char.toNat hhead
    rw [digit_toNat hd2] at this
    have h48 : ('0' : Char).toNat = 48 := by decide
    omega
  · exfalso
    simp only [pad2, if_neg hm, if_pos hn] at h
    have hmpos : 0 < m := by omega
    obtain ⟨d, l, hdl, hd1, hd2⟩ := decimalAux_head m hmpos (Nat.le_refl m)
    have hdata : decimalAux m m = '0' :: (natRepr n).data := by
      have h2 := congrArg String.data h
      rw [String.data_append, natRepr_data_of_ne (by omega : m ≠ 0)] at h2
      simpa using h2
    rw [hdl] at hdata
    injection hdata with hhead _
    have := congrArg Char.toNat hhead
    rw [digit_toNat hd2] at this
    have h48 : ('0' : Char).toNat = 48 := by decide
    omega
  · simp only [pad2, if_neg hm, if_neg hn] at h
    exact natRepr_inj h

theorem pad2_mem_digit {n : Nat} {c : Char} (hc : c ∈ (pad2 n).data) :
    ∃ d, d < 10 ∧ c = Char.ofNat (d + 48) := by
  have hzero : ('0' : Char) = Char.ofNat (0 + 48) := by decide
  by_cases hn : n < 10
  · simp only [pad2, if_pos hn, String.data_append] at hc
    rcases List.mem_append.mp hc with hc | hc
    · have : c = '0' := by simpa using hc
      exact ⟨0, by omega, this.trans hzero⟩
    · by_cases h0 : n = 0
      · subst h0
        have h00 : natRepr 0 = "0" := rfl
        rw [h00] at hc
        have : c = '0' := by simpa using hc
        exact ⟨0, by omega, this.trans hzero⟩
      · rw [natRepr_data_of_ne h0] at hc
        exact decimalAux_mem n n c hc
  · simp only [pad2, if_neg hn] at hc
    rw [natRepr_data_of_ne (by omega : n ≠ 0)] at hc
    exact decimalAux_mem n n c hc

theorem digit_ne_dot : ∀ d, d < 10 → (Char.ofNat (d + 48) != '.') = true := by
  decide

theorem pad2_no_dot {n : Nat} {c : Char} (hc : c ∈ (pad2 n).data) :
    (c != '.') = true := by
  obtain ⟨d, hd, hcd⟩ := pad2_mem_digit hc
  rw [hcd]
  exact digit_ne_dot d hd

theorem takeWhile_digits_dot (r : List Char) :
    ∀ l : List Char, (∀ c ∈ l, (c != '.') = true) →
      (l ++ '.' :: r).takeWhile (fun c => c != '.') = l := by
  intro l
  induction l with
  | nil =>
    intro _
    simp
  | cons c cs ih =>
    intro hall
    have hc := hall c (by simp)
    have hrest := ih (fun x hx => hall x (by simp [hx]))
    rw [List.cons_append, List.takeWhile_cons]
    simp [hc, hrest]

theorem historyKey_data (i : Nat) (nm : String) :
    (historyKey i nm).data = '#' :: ((pad2 i).data ++ '.' :: nm.data) := by
  simp only [historyKey, String.data_append]
  simp

theorem historyKey_index_inj {i j : Nat} {nm nm' : String}
    (h : historyKey i nm = historyKey j nm') : i = j := by
  have hdata := congrArg String.data h
  rw [historyKey_data, historyKey_data] at hdata
  injection hdata with _ htail
  have hi := takeWhile_digits_dot nm.data (pad2 i).data (fun c hc => pad2_no_dot hc)
  have hj := takeWhile_digits_dot nm'.data (pad2 j).data (fun c hc => pad2_no_dot hc)
  have : (pad2 i).data = (pad2 j).data := by
    rw [← hi, ← hj, htail]
  exact pad2_inj (String.ext this)

/-! ### History-dict lemmas

Keys recorded by `add_context` always carry the current history length as
their index, so the Python dict assignment in `add_context` never hits an
existing key: it always appends. -/

/-- Well-formedness of a history dict: every key is a `#NN.name` key with
an index below the current length. -/
def HistWF (h : List (String × String)) : Prop :=
  ∀ kv ∈ h, ∃ i nm, i < h.length ∧ kv.1 = historyKey i nm

theorem histWF_fresh {h : List (String × String)} (wf : HistWF h) (nm : String) :
    h.any (fun kv => kv.1 == historyKey h.length nm) = false := by
  rw [List.any_eq_false]
  intro kv hkv
  obtain ⟨i, nmi, hi, hkey⟩ := wf kv hkv
  simp only [beq_iff_eq]
  intro hcontra
  rw [hkey] at hcontra
  have := historyKey_index_inj hcontra
  omega

namespace MethodExecutionContext

theorem add_context_history {ctx : MethodExecutionContext}
    (wf : HistWF ctx._history) (nm : String) (args : List String)
    (kwargs : List (String × String)) :
    (ctx.add_context nm args kwargs)._history =
      ctx._history ++
        [(historyKey ctx._history.length nm, _get_arguments_list args kwargs)] := by
  simp only [add_context, dictInsert, histWF_fresh wf nm, Bool.false_eq_true,
    if_false]

theorem add_context_wf {ctx : MethodExecutionContext}
    (wf : HistWF ctx._history) (nm : String) (args : List String)
    (kwargs : List (String × String)) :
    HistWF (ctx.add_context nm args kwargs)._history := by
  rw [add_context_history wf]
  intro kv hkv
  rw [List.mem_append] at hkv
  rcases hkv with hkv | hkv
  · obtain ⟨i, nmi, hi, hkey⟩ := wf kv hkv
    exact ⟨i, nmi, by simp; omega, hkey⟩
  · rw [List.mem_singleton] at hkv
    subst hkv
    exact ⟨ctx._history.length, nm, by simp, rfl⟩

theorem add_context_path (ctx : MethodExecutionContext) (nm : String)
    (args : List String) (kwargs : List (String × String)) :
    (ctx.add_context nm args kwargs)._context = ctx._context ++ "/" ++ nm := rfl

theorem mk0_eq (nm : String) (args : List String)
    (kwargs : List (String × String)) :
    mk0 nm args kwargs =
      { _name := nm, _args := args, _kwargs := kwargs,
        _context := "/" ++ nm,
        _history := [(historyKey 0 nm, _get_arguments_list args kwargs)] } := by
  simp only [mk0, clear_context, add_context, dictInsert]
  have hpath : ("" : String) ++ "/" ++ nm = "/" ++ nm := by
    have : ("" : String) ++ "/" = "/" := rfl
    rw [this]
  simp [hpath]

theorem mk0_wf (nm : String) (args : List String)
    (kwargs : List (String × String)) : HistWF (mk0 nm args kwargs)._history := by
  rw [mk0_eq]
  intro kv hkv
  rw [List.mem_singleton] at hkv
  subst hkv
  exact ⟨0, nm, by simp, rfl⟩

theorem clear_context_eq (ctx : MethodExecutionContext) :
    ctx.clear_context = mk0 ctx._name ctx._args ctx._kwargs := rfl

end MethodExecutionContext

theorem chainPath_append (l₁ l₂ : List String) :
    chainPath (l₁ ++ l₂) = chainPath l₁ ++ chainPath l₂ := by
  induction l₁ with
  | nil =>
    simp only [List.nil_append, chainPath]
    have : ∀ s : String, "" ++ s = s := by
      intro s; cases s; simp [String.append]
    rw [this]
  | cons n rest ih =>
    rw [List.cons_append]
    simp only [chainPath]
    rw [ih]
    simp [String.append_assoc]

theorem applyChain_nil (ctx : MethodExecutionContext) : applyChain ctx [] = ctx :=
  rfl

theorem applyChain_cons (ctx : MethodExecutionContext) (c : Call)
    (cs : List Call) :
    applyChain ctx (c :: cs) =
      applyChain (ctx.add_context c.name c.args c.kwargs) cs := rfl

theorem applyChain_root (calls : List Call) :
    ∀ ctx : MethodExecutionContext,
      (applyChain ctx calls)._name = ctx._name ∧
      (applyChain ctx calls)._args = ctx._args ∧
      (applyChain ctx calls)._kwargs = ctx._kwargs := by
  induction calls with
  | nil => intro ctx; exact ⟨rfl, rfl, rfl⟩
  | cons c cs ih => intro ctx; exact ih _

theorem applyChain_path (calls : List Call) :
    ∀ ctx : MethodExecutionContext,
      (applyChain ctx calls)._context =
        ctx._context ++ chainPath (calls.map Call.name) := by
  induction calls with
  | nil =>
    intro ctx
    simp only [applyChain_nil, List.map_nil, chainPath]
    have : ∀ s : String, s ++ "" = s := by
      intro s; cases s; simp [String.append]
    rw [this]
  | cons c cs ih =>
    intro ctx
    rw [applyChain_cons, ih, MethodExecutionContext.add_context_path]
    simp only [List.map_cons, chainPath, String.append_assoc]

theorem applyChain_history (calls : List Call) :
    ∀ ctx : MethodExecutionContext, HistWF ctx._history →
      (applyChain ctx calls)._history =
        ctx._history ++ histEntries ctx._history.length calls := by
  induction calls with
  | nil => intro ctx _; simp [applyChain_nil, histEntries]
  | cons c cs ih =>
    intro ctx wf
    rw [applyChain_cons,
      ih _ (MethodExecutionContext.add_context_wf wf c.name c.args c.kwargs),
      MethodExecutionContext.add_context_history wf]
    simp only [List.length_append, List.length_cons, List.length_nil,
      Nat.zero_add, List.append_assoc, List.singleton_append]
    rfl

theorem applyChain_wf (calls : List Call) :
    ∀ ctx : MethodExecutionContext, HistWF ctx._history →
      HistWF (applyChain ctx calls)._history := by
  induction calls with
  | nil => intro ctx wf; exact wf
  | cons c cs ih =>
    intro ctx wf
    exact ih _ (MethodExecutionContext.add_context_wf wf c.name c.args c.kwargs)

theorem histEntries_append (l₁ l₂ : List Call) :
    ∀ i, histEntries i (l₁ ++ l₂) =
      histEntries i l₁ ++ histEntries (i + l₁.length) l₂ := by
  induction l₁ with
  | nil => intro i; simp [histEntries]
  | cons c cs ih =>
    intro i
    rw [List.cons_append]
    simp only [histEntries, ih (i + 1), List.cons_append, List.length_cons]
    have : i + 1 + cs.length = i + (cs.length + 1) := by omega
    rw [this]

theorem histEntries_length (l : List Call) :
    ∀ i, (histEntries i l).length = l.length := by
  induction l with
  | nil => intro i; rfl
  | cons c cs ih => intro i; simp [histEntries, ih]

theorem histEntries_map_attrs (sp : String) (l : List Call) :
    ∀ i, (histEntries i l).map
        (fun kv => TraceEvent.setAttribute sp ("db.method." ++ kv.1) kv.2) =
      historyAttrs sp i l := by
  induction l with
  | nil => intro i; rfl
  | cons c cs ih => intro i; simp [histEntries, historyAttrs, ih]

/-! ### Event-shape lemmas for `_populate_span` and `run` -/

theorem populate_events_attrs (t : RqlQueryTracer) (span : SpanObj) :
    ∀ ev ∈ (t._populate_span span).2, ∃ s k v, ev = TraceEvent.setAttribute s k v := by
  intro ev hev
  cases hr : span.recording with
  | false => simp [RqlQueryTracer._populate_span, hr] at hev
  | true =>
    simp only [RqlQueryTracer._populate_span, hr, Bool.not_true,
      Bool.false_eq_true, if_false, List.mem_cons] at hev
    rcases hev with rfl | hev
    · exact ⟨_, _, _, rfl⟩
    · obtain ⟨kv, _, rfl⟩ := List.mem_map.mp hev
      exact ⟨_, _, _, rfl⟩

theorem populate_no_end (t : RqlQueryTracer) (span : SpanObj) :
    (t._populate_span span).2.countP TraceEvent.isEnd = 0 := by
  rw [List.countP_eq_zero]
  intro ev hev
  obtain ⟨s, k, v, rfl⟩ := populate_events_attrs t span ev hev
  simp [TraceEvent.isEnd]

theorem populate_no_start (t : RqlQueryTracer) (span : SpanObj) :
    (t._populate_span span).2.countP TraceEvent.isStart = 0 := by
  rw [List.countP_eq_zero]
  intro ev hev
  obtain ⟨s, k, v, rfl⟩ := populate_events_attrs t span ev hev
  simp [TraceEvent.isStart]

theorem populate_filter_status (t : RqlQueryTracer) (span : SpanObj) :
    (t._populate_span span).2.filter TraceEvent.isSetStatus = [] := by
  rw [List.filter_eq_nil_iff]
  intro ev hev
  obtain ⟨s, k, v, rfl⟩ := populate_events_attrs t span ev hev
  simp [TraceEvent.isSetStatus]

theorem populate_filter_nonstatus (t : RqlQueryTracer) (span : SpanObj) :
    (t._populate_span span).2.filter (fun ev => !ev.isSetStatus) =
      (t._populate_span span).2 := by
  rw [List.filter_eq_self]
  intro ev hev
  obtain ⟨s, k, v, rfl⟩ := populate_events_attrs t span ev hev
  simp [TraceEvent.isSetStatus]

/-- The fully evaluated shape of a successful `run` through a recording
span: context cleared, one span started and ended, `db.system` plus one
attribute per history entry, the result passed through. -/
theorem run_ok_eq (ctx : MethodExecutionContext) (args : List String)
    (kwargs : List (String × String)) {A : Type} (res : A) :
    RqlQueryProxy.run ctx true args kwargs (Except.ok res) =
      ((ctx.add_context "run" args kwargs).clear_context,
       TraceEvent.startSpan (ctx.add_context "run" args kwargs)._context true ::
         TraceEvent.setAttribute (ctx.add_context "run" args kwargs)._context
           "db.system" "rethinkdb" ::
         ((ctx.add_context "run" args kwargs)._history.map
             (fun kv =>
               TraceEvent.setAttribute (ctx.add_context "run" args kwargs)._context
                 ("db.method." ++ kv.1) kv.2) ++
           [TraceEvent.endSpan (ctx.add_context "run" args kwargs)._context]),
       Except.ok res) := rfl

/-! ### Claim theorems -/

theorem str_append_empty (s : String) : s ++ "" = s := by
  cases s
  simp [String.append]

theorem str_empty_append (s : String) : "" ++ s = s := by
  cases s
  simp [String.append]

/-- The fully evaluated shape of `traced_execution` on a successful wrapped
call. -/
theorem traced_execution_ok_eq (t : RqlQueryTracer) (rc : Bool) {A : Type}
    (res : A) :
    t.traced_execution rc (Except.ok res) =
      ((t._populate_span (SpanObj.mk t._method_context.get_context_path rc)).1,
       TraceEvent.startSpan t._method_context.get_context_path rc ::
         (t._populate_span (SpanObj.mk t._method_context.get_context_path rc)).2 ++
         [TraceEvent.endSpan t._method_context.get_context_path],
       Except.ok res) := rfl

/-- The fully evaluated shape of `traced_execution` on a failing wrapped
call: same state change and events, plus the conditional status event,
and the very same exception as outcome. -/
theorem traced_execution_error_eq (t : RqlQueryTracer) (rc : Bool) {A : Type}
    (ex : RethinkError) :
    t.traced_execution rc (Except.error ex : Except RethinkError A) =
      ((t._populate_span (SpanObj.mk t._method_context.get_context_path rc)).1,
       TraceEvent.startSpan t._method_context.get_context_path rc ::
         (t._populate_span (SpanObj.mk t._method_context.get_context_path rc)).2 ++
         (if rc then
            [TraceEvent.setStatus t._method_context.get_context_path (errStr ex)]
          else []) ++
         [TraceEvent.endSpan t._method_context.get_context_path],
       Except.error ex) := rfl

/-- C6 (failing input): invoking `upcase` on the query-builder proxy does
not invoke the wrapped object's `upcase`: the dispatch table sends it to
the wrapped `filter` (`__init__.py` line 344), and the name recorded in
the shared context is therefore `filter`; `downcase` likewise invokes the
wrapped `upcase` (line 347).  Both names are chainable methods of the
proxy, so the claim that every chainable method invokes and records its
own name fails on them; this theorem evaluates the embedding at the
failing inputs. -/
theorem c6_upcase_downcase_misdispatch :
    RqlQueryProxy.proxy_method_target "upcase" = "filter" ∧
    RqlQueryProxy.proxy_method_target "downcase" = "upcase" ∧
    "upcase" ∈ RqlQueryProxy.chainableMethods ∧
    "downcase" ∈ RqlQueryProxy.chainableMethods ∧
    RqlQueryProxy.invoke (MethodExecutionContext.mk0 "table" [] []) "upcase"
        (fun tgt => (Except.ok tgt : Except RethinkError String)) [] [] =
      ((MethodExecutionContext.mk0 "table" [] []).add_context "filter" [] [],
       Except.ok "filter") ∧
    ((MethodExecutionContext.mk0 "table" [] []).add_context "filter" [] [])._history =
      [(historyKey 0 "table", "()"), (historyKey 1 "filter", "()")] := by
  refine ⟨rfl, rfl, by decide, by decide, rfl, by decide⟩

/-- C7: for every outgoing request payload that fails to parse during
classification, the classifier does not raise: it returns the `undefined`
type tag together with an error-describing path string, and the wrapped
call still proceeds untraced, its outcome — return value or raised
failure — identical to the unwrapped call's. -/
theorem c7_unparseable_payload_fallback (payload : String) (rc : Bool)
    {A : Type} (call : Except RethinkError A)
    (h : tokenizePayload payload = none) :
    classify_query payload =
      ("undefined", "error: could not parse payload: " ++ payload) ∧
    (traced_send rc payload call).2 = call ∧
    (traced_send rc payload call).1 = [] := by
  have hcq : classify_query payload =
      ("undefined", "error: could not parse payload: " ++ payload) := by
    rw [classify_query, h]
  refine ⟨hcq, ?_, ?_⟩ <;> simp [traced_send, hcq]

/-- Witness for C7 at a concrete malformed payload. -/
theorem c7_unparseable_payload_fallback_witness :
    classify_query "xyz" =
      ("undefined", "error: could not parse payload: " ++ "xyz") ∧
    (traced_send true "xyz" (Except.ok 0 : Except RethinkError Nat)).2 =
      Except.ok 0 ∧
    (traced_send true "xyz" (Except.ok 0 : Except RethinkError Nat)).1 = [] :=
  c7_unparseable_payload_fallback "xyz" true (Except.ok 0) rfl

/-- On a cursor whose deferred span is open, any sequence of `next` calls
ending in a failure ends the span exactly once and propagates the
terminating failure unchanged. -/
theorem runNexts_closes_once {A : Type} (rows : List A) :
    ∀ (c : DefaultCursorProxy) (span : SpanObj),
      c.tracer._running_span = some span →
      ∀ terminal : RethinkError,
        (runNexts c rows terminal).2.1.countP TraceEvent.isEnd = 1 ∧
        (runNexts c rows terminal).2.2 = Except.error terminal := by
  induction rows with
  | nil =>
    intro c span hspan terminal
    simp only [runNexts, DefaultCursorProxy.__next__]
    constructor
    · simp only [RqlQueryTracer._stop_running_span, hspan]
      rw [List.countP_append, populate_no_end]
      simp [List.countP_cons, TraceEvent.isEnd]
    · trivial
  | cons a rest ih =>
    intro c span hspan terminal
    simp only [runNexts, DefaultCursorProxy.__next__]
    simpa using ih c span hspan terminal

/-- C3: for every cursor proxy whose iteration was started (opening the
deferred span) and then driven through any number of successful `next`
calls followed by a terminating signal — the stream-exhausted
`ReqlCursorEmpty` or any other failure — the deferred span's end is
invoked exactly once, never zero and never multiple times, and the
terminating signal is propagated to the caller unchanged. -/
theorem c3_deferred_span_ends_exactly_once (mctx : MethodExecutionContext)
    (cargs : List String) (ckwargs : List (String × String)) (rc : Bool)
    {A : Type} (rows : List A) (terminal : RethinkError) :
    ∃ c₁ evs₀,
      (DefaultCursorProxy.mk0 mctx cargs ckwargs).__iter__ rc =
        Except.ok (c₁, evs₀) ∧
      evs₀.countP TraceEvent.isEnd = 0 ∧
      (runNexts c₁ rows terminal).2.1.countP TraceEvent.isEnd = 1 ∧
      (runNexts c₁ rows terminal).2.2 = Except.error terminal := by
  refine ⟨_, _, rfl, rfl, ?_, ?_⟩ <;>
    exact (runNexts_closes_once rows _ _ rfl terminal).elim (fun h₁ h₂ => by
      first
      | exact h₁
      | exact h₂)

/-- C2: for every exception raised by the wrapped run callable inside
`traced_execution`, the very same exception value is re-raised to the
caller, the state effect on the tracer is identical to the successful
path, and the only difference in emitted tracing calls is a single
`set_status(ERROR, str(ex))` on the span — present exactly when the span
is in a recording state. -/
theorem c2_error_reraised_with_status_only (t : RqlQueryTracer) (rc : Bool)
    (ex : RethinkError) {A : Type} (a : A) :
    (t.traced_execution rc (Except.error ex : Except RethinkError A)).2.2 =
      Except.error ex ∧
    (t.traced_execution rc (Except.error ex : Except RethinkError A)).1 =
      (t.traced_execution rc (Except.ok a)).1 ∧
    (t.traced_execution rc (Except.error ex : Except RethinkError A)).2.1.filter
        (fun ev => !ev.isSetStatus) =
      (t.traced_execution rc (Except.ok a)).2.1 ∧
    (t.traced_execution rc (Except.error ex : Except RethinkError A)).2.1.filter
        TraceEvent.isSetStatus =
      (if rc then
        [TraceEvent.setStatus t._method_context.get_context_path (errStr ex)]
       else []) := by
  rw [traced_execution_error_eq, traced_execution_ok_eq]
  refine ⟨rfl, rfl, ?_, ?_⟩
  · simp only [List.filter_cons, List.filter_append, populate_filter_nonstatus]
    cases rc <;> simp [TraceEvent.isSetStatus]
  · simp only [List.filter_cons, List.filter_append, populate_filter_status]
    cases rc <;> simp [TraceEvent.isSetStatus]

/-- C4: for every tracer state, starting a deferred span while one is
already open raises a synchronous usage error (the exact
`Exception("You need to finish the trace before starting a new one")`)
and opens no second span, while starting one while none is open creates a
new span named after the context path and records it as the running
span. -/
theorem c4_start_new_span_exclusive (t : RqlQueryTracer) (rc : Bool) :
    (t._running_span = none →
      t._start_new_span rc =
        Except.ok
          ({ t with _running_span := some (SpanObj.mk t._method_context.get_context_path rc) },
           [TraceEvent.startSpan t._method_context.get_context_path rc])) ∧
    (∀ s, t._running_span = some s →
      t._start_new_span rc =
        Except.error (RethinkError.pyException
          "You need to finish the trace before starting a new one")) := by
  constructor
  · intro hnone
    rw [RqlQueryTracer._start_new_span, hnone]
  · intro s hsome
    rw [RqlQueryTracer._start_new_span, hsome]

/-- Witness for C4 at a concrete tracer in each of the two states. -/
theorem c4_start_new_span_exclusive_witness :
    ((RqlQueryTracer.mk0 (MethodExecutionContext.mk0 "table" [] []))._start_new_span
        true =
      Except.ok
        ({ RqlQueryTracer.mk0 (MethodExecutionContext.mk0 "table" [] []) with _running_span := some (SpanObj.mk (MethodExecutionContext.mk0 "table" [] []).get_context_path true) },
         [TraceEvent.startSpan
            (MethodExecutionContext.mk0 "table" [] []).get_context_path true])) ∧
    (RqlQueryTracer.mk
        (MethodExecutionContext.mk0 "table" [] [])
        (some (SpanObj.mk "/table" true)))._start_new_span true =
      Except.error (RethinkError.pyException
        "You need to finish the trace before starting a new one") :=
  ⟨(c4_start_new_span_exclusive
      (RqlQueryTracer.mk0 (MethodExecutionContext.mk0 "table" [] [])) true).1 rfl,
   (c4_start_new_span_exclusive
      (RqlQueryTracer.mk
        (MethodExecutionContext.mk0 "table" [] [])
        (some (SpanObj.mk "/table" true))) true).2
     (SpanObj.mk "/table" true) rfl⟩

/-- C5: for every context state, regardless of how many entries the
history held before, `clear_context` followed by `get_history` yields
exactly one entry, keyed with index 0 and the root name and valued with
the rendered root arguments, and the path after clearing is the single
segment naming the root call. -/
theorem c5_clear_primes_root (ctx : MethodExecutionContext) :
    ctx.clear_context.get_history =
      [(historyKey 0 ctx._name,
        MethodExecutionContext._get_arguments_list ctx._args ctx._kwargs)] ∧
    ctx.clear_context.get_context_path = "/" ++ ctx._name := by
  rw [MethodExecutionContext.clear_context_eq, MethodExecutionContext.mk0_eq]
  exact ⟨rfl, rfl⟩

/-- C9: for every chainable proxy method invocation, if the underlying
wrapped method raises, the shared context is returned completely
unchanged — no path segment appended, no history entry recorded — and the
exception propagates as is, because `__execute_method__` only calls
`add_context` after the wrapped call returns. -/
theorem c9_failed_call_leaves_context_unchanged
    (ctx : MethodExecutionContext) (mname : String) {Q : Type}
    (methods : String → Except RethinkError Q) (args : List String)
    (kwargs : List (String × String)) (e : RethinkError)
    (h : methods (RqlQueryProxy.proxy_method_target mname) = Except.error e) :
    RqlQueryProxy.invoke ctx mname methods args kwargs = (ctx, Except.error e) := by
  rw [RqlQueryProxy.invoke, h]
  rfl

/-- Witness for C9 at a concrete context and a wrapped method that
raises. -/
theorem c9_failed_call_leaves_context_unchanged_witness :
    RqlQueryProxy.invoke (MethodExecutionContext.mk0 "table" [] []) "filter"
        (fun _ => (Except.error (RethinkError.reqlError "boom") :
          Except RethinkError Nat)) [] [] =
      (MethodExecutionContext.mk0 "table" [] [],
       Except.error (RethinkError.reqlError "boom")) :=
  c9_failed_call_leaves_context_unchanged
    (MethodExecutionContext.mk0 "table" [] []) "filter" _ [] []
    (RethinkError.reqlError "boom") rfl

/-- C10: starting iteration on the same cursor proxy a second time while
its deferred span is still open raises the tracing layer's usage-error
exception to the caller (the unwrapped cursor's `__iter__` merely returns
itself and would permit it). -/
theorem c10_second_iter_raises (mctx : MethodExecutionContext)
    (cargs : List String) (ckwargs : List (String × String)) (rc rc' : Bool) :
    ∃ c₁ evs,
      (DefaultCursorProxy.mk0 mctx cargs ckwargs).__iter__ rc =
        Except.ok (c₁, evs) ∧
      c₁.__iter__ rc' =
        Except.error (RethinkError.pyException
          "You need to finish the trace before starting a new one") := by
  refine ⟨_, _, rfl, rfl⟩

/-- C1: for every sequence of chained builder-proxy calls followed by a
terminal `run`, the span emitted by `traced_execution` is named by the
slash-joined sequence of the recorded call names in call order — root
first, `run` last — and the attributes populated from the history carry,
for each call, the zero-padded index equal to that call's position in the
chain (root at `#00`), in recording order.  Stated as the full evaluation
of `run` on the accumulated context. -/
theorem c1_span_name_and_history_indices (rootName : String)
    (rargs : List String) (rkw : List (String × String)) (calls : List Call)
    (runArgs : List String) (runKw : List (String × String)) {A : Type}
    (res : A) :
    RqlQueryProxy.run
        (applyChain (MethodExecutionContext.mk0 rootName rargs rkw) calls) true
        runArgs runKw (Except.ok res) =
      (MethodExecutionContext.mk0 rootName rargs rkw,
       TraceEvent.startSpan
           (chainPath (((Call.mk rootName rargs rkw :: calls) ++
             [Call.mk "run" runArgs runKw]).map Call.name)) true ::
         TraceEvent.setAttribute
           (chainPath (((Call.mk rootName rargs rkw :: calls) ++
             [Call.mk "run" runArgs runKw]).map Call.name)) "db.system"
           "rethinkdb" ::
         (historyAttrs
             (chainPath (((Call.mk rootName rargs rkw :: calls) ++
               [Call.mk "run" runArgs runKw]).map Call.name)) 0
             ((Call.mk rootName rargs rkw :: calls) ++
               [Call.mk "run" runArgs runKw]) ++
           [TraceEvent.endSpan
             (chainPath (((Call.mk rootName rargs rkw :: calls) ++
               [Call.mk "run" runArgs runKw]).map Call.name))]),
       Except.ok res) := by
  have wf0 := MethodExecutionContext.mk0_wf rootName rargs rkw
  have hwf := applyChain_wf calls _ wf0
  have hpath :
      ((applyChain (MethodExecutionContext.mk0 rootName rargs rkw)
          calls).add_context "run" runArgs runKw)._context =
        chainPath (((Call.mk rootName rargs rkw :: calls) ++
          [Call.mk "run" runArgs runKw]).map Call.name) := by
    rw [MethodExecutionContext.add_context_path, applyChain_path,
      MethodExecutionContext.mk0_eq]
    simp only [List.map_append, List.map_cons, List.map_nil, chainPath_append,
      chainPath]
    simp [String.append_assoc, str_append_empty, chainPath_append, chainPath,
      List.append_eq]
  have hhist :
      ((applyChain (MethodExecutionContext.mk0 rootName rargs rkw)
          calls).add_context "run" runArgs runKw)._history =
        histEntries 0 ((Call.mk rootName rargs rkw :: calls) ++
          [Call.mk "run" runArgs runKw]) := by
    rw [MethodExecutionContext.add_context_history hwf,
      applyChain_history calls _ wf0]
    have h0 : (MethodExecutionContext.mk0 rootName rargs rkw)._history =
        histEntries 0 [Call.mk rootName rargs rkw] := rfl
    rw [h0]
    simp only [List.append_eq, histEntries_append, histEntries,
      histEntries_length, List.length_append, List.length_cons,
      List.length_nil, List.length_map, List.append_assoc,
      List.singleton_append, List.cons_append, List.nil_append, Nat.zero_add,
      Call.render]
    simp [Nat.add_comm]
  have hclear :
      ((applyChain (MethodExecutionContext.mk0 rootName rargs rkw)
          calls).add_context "run" runArgs runKw).clear_context =
        MethodExecutionContext.mk0 rootName rargs rkw := by
    rw [MethodExecutionContext.clear_context_eq]
    obtain ⟨hn, ha, hk⟩ :=
      applyChain_root calls (MethodExecutionContext.mk0 rootName rargs rkw)
    congr 1
  rw [run_ok_eq, hhist, hpath, histEntries_map_attrs, hclear]

/-- The event stream of a `run` call with a successful wrapped call. -/
theorem run_events_ok (ctx : MethodExecutionContext) (rc : Bool)
    (args : List String) (kwargs : List (String × String)) {A : Type} (a : A) :
    (RqlQueryProxy.run ctx rc args kwargs (Except.ok a)).2.1 =
      TraceEvent.startSpan (ctx.add_context "run" args kwargs)._context rc ::
        ((RqlQueryTracer.mk0 (ctx.add_context "run" args kwargs))._populate_span
            (SpanObj.mk (ctx.add_context "run" args kwargs)._context rc)).2 ++
        [TraceEvent.endSpan (ctx.add_context "run" args kwargs)._context] := rfl

/-- The event stream of a `run` call whose wrapped call fails. -/
theorem run_events_error (ctx : MethodExecutionContext) (rc : Bool)
    (args : List String) (kwargs : List (String × String)) {A : Type}
    (ex : RethinkError) :
    (RqlQueryProxy.run ctx rc args kwargs
        (Except.error ex : Except RethinkError A)).2.1 =
      TraceEvent.startSpan (ctx.add_context "run" args kwargs)._context rc ::
        ((RqlQueryTracer.mk0 (ctx.add_context "run" args kwargs))._populate_span
            (SpanObj.mk (ctx.add_context "run" args kwargs)._context rc)).2 ++
        (if rc then
          [TraceEvent.setStatus (ctx.add_context "run" args kwargs)._context
            (errStr ex)]
         else []) ++
        [TraceEvent.endSpan (ctx.add_context "run" args kwargs)._context] := rfl

/-- Every `run` call starts exactly one span and ends exactly one span,
the start first and the end last, regardless of outcome and sampling. -/
theorem run_span_counts (ctx : MethodExecutionContext) (rc : Bool)
    (args : List String) (kwargs : List (String × String)) {A : Type}
    (res : Except RethinkError A) :
    (RqlQueryProxy.run ctx rc args kwargs res).2.1.countP TraceEvent.isStart = 1 ∧
    (RqlQueryProxy.run ctx rc args kwargs res).2.1.countP TraceEvent.isEnd = 1 ∧
    (RqlQueryProxy.run ctx rc args kwargs res).2.1.head? =
      some (TraceEvent.startSpan (ctx.add_context "run" args kwargs)._context rc) ∧
    (RqlQueryProxy.run ctx rc args kwargs res).2.1.getLast? =
      some (TraceEvent.endSpan (ctx.add_context "run" args kwargs)._context) := by
  cases res with
  | ok a =>
    rw [run_events_ok]
    refine ⟨?_, ?_, rfl, ?_⟩
    · simp [List.countP_cons, List.countP_append, populate_no_start,
        TraceEvent.isStart]
    · simp [List.countP_cons, List.countP_append, populate_no_end,
        TraceEvent.isEnd]
    · rw [List.getLast?_concat]
  | error ex =>
    rw [run_events_error]
    refine ⟨?_, ?_, rfl, ?_⟩
    · cases rc <;>
        simp [List.countP_cons, List.countP_append, populate_no_start,
          TraceEvent.isStart]
    · cases rc <;>
        simp [List.countP_cons, List.countP_append, populate_no_end,
          TraceEvent.isEnd]
    · cases rc <;> rw [List.getLast?_concat]

/-- C8: after span attributes are populated in chain mode the owning
context is cleared, so two sequential `run` calls through the same proxy
produce two spans, each independently started once and ended once (start
first, end last, the second span's events strictly after the first's),
with the context's history reset to exactly the primed root entry between
the two calls. -/
theorem c8_two_sequential_runs (rargs : List String)
    (rkw : List (String × String)) (a1 a2 : List String)
    (k1 k2 : List (String × String)) {A : Type}
    (r1 r2 : Except RethinkError A) :
    (RqlQueryProxy.run (MethodExecutionContext.mk0 "table" rargs rkw) true a1 k1
        r1).1 = MethodExecutionContext.mk0 "table" rargs rkw ∧
    (RqlQueryProxy.run (MethodExecutionContext.mk0 "table" rargs rkw) true a1 k1
        r1).1.get_history =
      [(historyKey 0 "table",
        MethodExecutionContext._get_arguments_list rargs rkw)] ∧
    (RqlQueryProxy.run (MethodExecutionContext.mk0 "table" rargs rkw) true a1 k1
        r1).2.1.countP TraceEvent.isStart = 1 ∧
    (RqlQueryProxy.run (MethodExecutionContext.mk0 "table" rargs rkw) true a1 k1
        r1).2.1.countP TraceEvent.isEnd = 1 ∧
    (RqlQueryProxy.run (MethodExecutionContext.mk0 "table" rargs rkw) true a1 k1
        r1).2.1.head? = some (TraceEvent.startSpan "/table/run" true) ∧
    (RqlQueryProxy.run (MethodExecutionContext.mk0 "table" rargs rkw) true a1 k1
        r1).2.1.getLast? = some (TraceEvent.endSpan "/table/run") ∧
    (RqlQueryProxy.run
        (RqlQueryProxy.run (MethodExecutionContext.mk0 "table" rargs rkw) true
          a1 k1 r1).1 true a2 k2 r2).2.1.countP TraceEvent.isStart = 1 ∧
    (RqlQueryProxy.run
        (RqlQueryProxy.run (MethodExecutionContext.mk0 "table" rargs rkw) true
          a1 k1 r1).1 true a2 k2 r2).2.1.countP TraceEvent.isEnd = 1 ∧
    (RqlQueryProxy.run
        (RqlQueryProxy.run (MethodExecutionContext.mk0 "table" rargs rkw) true
          a1 k1 r1).1 true a2 k2 r2).2.1.head? =
      some (TraceEvent.startSpan "/table/run" true) ∧
    (RqlQueryProxy.run
        (RqlQueryProxy.run (MethodExecutionContext.mk0 "table" rargs rkw) true
          a1 k1 r1).1 true a2 k2 r2).2.1.getLast? =
      some (TraceEvent.endSpan "/table/run") := by
  have h1 : (RqlQueryProxy.run (MethodExecutionContext.mk0 "table" rargs rkw)
      true a1 k1 r1).1 = MethodExecutionContext.mk0 "table" rargs rkw := by
    cases r1 <;> rfl
  obtain ⟨hs1, he1, hh1, hl1⟩ :=
    run_span_counts (MethodExecutionContext.mk0 "table" rargs rkw) true a1 k1 r1
  obtain ⟨hs2, he2, hh2, hl2⟩ :=
    run_span_counts (MethodExecutionContext.mk0 "table" rargs rkw) true a2 k2 r2
  rw [h1]
  exact ⟨rfl, rfl, hs1, he1, hh1, hl1, hs2, he2, hh2, hl2⟩

end RethinkDBInstr


